import Mathlib

/-!
Shallow embedding of `dfir-orc-archive-rebuilder.py` (DFIR-Orc Archive
Rebuilder).  Pure Python string/dict/path computations are translated to
executable Lean functions; the filesystem, the error log and the archive
handles are explicit state; Python exceptions are an `Except` result.
Archive decompression, CSV text decoding and TOML loading are out of scope
(treated as opaque capabilities), so manifest and volume-label files are
embedded at the parsed-row level and archives as a tree datatype.
-/

deriving instance DecidableEq for Except

namespace DfirOrc

/-- Python exceptions that the modelled code can raise. -/
inductive PyErr where
  | valueError
  | typeError
  | attributeError
  | recursionError
  | osError
deriving DecidableEq, Repr

/-! ## String helpers (Python string operations used by the script) -/

/-- Python `c` after `str.replace('\\', '/')` applied characterwise: the
pattern and replacement are single characters, so the replacement is a map. -/
def slashChar (c : Char) : Char := if c = '\\' then '/' else c

/-- Python `s.replace('\\', '/')`. -/
def normSlash (s : String) : String := ⟨s.data.map slashChar⟩

/-- Python `s[1:]`: drop the first character. -/
def strTail (s : String) : String := ⟨s.data.drop 1⟩

/-- Whether the string starts with the given character. -/
def pyStartsWith (c : Char) (s : String) : Bool :=
  match s.data with
  | [] => false
  | a :: _ => a = c

/-- Whether `s` ends with `suffix` (Python `str.endswith`). -/
def strEndsWith (s suffix : String) : Bool :=
  suffix.data.isSuffixOf s.data

/-- Split a character list on a separator character; the result always has
one more group than there are separators (like Python `str.split(sep)`). -/
def splitOnChar (sep : Char) : List Char → List (List Char)
  | [] => [[]]
  | c :: cs =>
    let r := splitOnChar sep cs
    if c = sep then [] :: r
    else
      match r with
      | [] => [[c]]
      | g :: gs => (c :: g) :: gs

/-- Parse a non-empty all-digit character list as a natural number. -/
def charsToNat? (l : List Char) : Option Nat :=
  if l = [] then none
  else l.foldl (fun acc c =>
    match acc with
    | none => none
    | some n => if c.isDigit then some (n * 10 + (c.toNat - 48)) else none) (some 0)

/-! ## Volume folder naming convention
(`_naming_convention_volume_folder`, lines 35-57 of the source; the leading
underscore of the Python name is dropped: Lean identifiers cannot start
with one). -/

/-- The all-zero GUID sentinel meaning "no snapshot". -/
def zeroGuid : String := "\x7b00000000-0000-0000-0000-000000000000\x7d"

/-- `_naming_convention_volume_folder(volume_id, snapshot_id)`. -/
def naming_convention_volume_folder (volume_id snapshot_id : String) : String :=
  if snapshot_id = zeroGuid then volume_id
  else volume_id ++ " (vsc " ++ snapshot_id ++ ")"

/-! ## Python dictionaries
Association lists with Python `dict` semantics: assignment replaces the
value of an existing key in place, otherwise appends; iteration follows
this insertion order; `{**a, **b}` inserts all of `b` into a copy of `a`. -/

/-- Python `d[k] = v`. -/
def pyDictInsert {α : Type} (m : List (String × α)) (k : String) (v : α) :
    List (String × α) :=
  match m with
  | [] => [(k, v)]
  | (k', v') :: rest =>
    if k' = k then (k, v) :: rest else (k', v') :: pyDictInsert rest k v

/-- Python `d.get(k)` / `k in d`. -/
def pyLookup {α : Type} (m : List (String × α)) (k : String) : Option α :=
  match m with
  | [] => none
  | (k', v) :: rest => if k' = k then some v else pyLookup rest k

/-- Python `{**a, **b}` (line 239 of the source). -/
def pyMerge {α : Type} (a b : List (String × α)) : List (String × α) :=
  b.foldl (fun acc kv => pyDictInsert acc kv.1 kv.2) a

/-! ## Timestamps
`int(datetime.datetime.strptime(s, '%Y-%m-%d %H:%M:%S.%f').timestamp())`
(lines 84-85).  `strptime` produces a naive datetime; `.timestamp()`
interprets a naive datetime in the host's local timezone, so the epoch
value is the naive-as-UTC value minus the host's UTC offset; `int(...)`
truncates the float toward zero, discarding the microseconds. -/

structure NaiveDateTime where
  year : Nat
  month : Nat
  day : Nat
  hour : Nat
  minute : Nat
  second : Nat
  micro : Nat
deriving DecidableEq, Repr

/-- Days from 1970-01-01 to the given civil date (standard civil-from-days
inverse; valid for years ≥ 1). -/
def daysFromCivil (y m d : Nat) : Int :=
  let y' : Nat := if m ≤ 2 then y - 1 else y
  let era : Nat := y' / 400
  let yoe : Nat := y' % 400
  let mp : Nat := (m + 9) % 12
  let doy : Nat := (153 * mp + 2) / 5 + (d - 1)
  let doe : Nat := yoe * 365 + yoe / 4 - yoe / 100 + doy
  (era * 146097 + doe : Int) - 719468

/-- Seconds from the epoch to the given date-time read as if it were UTC. -/
def epochSecondsNaive (t : NaiveDateTime) : Int :=
  daysFromCivil t.year t.month t.day * 86400
    + t.hour * 3600 + t.minute * 60 + t.second

/-- `int(naive_datetime.timestamp())` on a host whose UTC offset is
`utcOffsetSeconds`: the float epoch is `naive-as-UTC - offset + micro/1e6`
and `int` truncates toward zero. -/
def pyNaiveTimestampInt (t : NaiveDateTime) (utcOffsetSeconds : Int) : Int :=
  let e := epochSecondsNaive t - utcOffsetSeconds
  if 0 ≤ e ∨ t.micro = 0 then e else e + 1

/-- `datetime.datetime.strptime(s, '%Y-%m-%d %H:%M:%S.%f')`, specialised to
the one format the script uses. `none` models a raised `ValueError`. -/
def parseFixedDateTime (s : String) : Option NaiveDateTime :=
  match splitOnChar ' ' s.data with
  | [datePart, timePart] =>
    match splitOnChar '-' datePart, splitOnChar ':' timePart with
    | [ys, ms, ds], [hs, mins, sm] =>
      match splitOnChar '.' sm with
      | [ss, us] =>
        match charsToNat? ys, charsToNat? ms, charsToNat? ds,
              charsToNat? hs, charsToNat? mins, charsToNat? ss,
              charsToNat? us with
        | some y, some mo, some d, some h, some mi, some sec, some mic =>
          if 1 ≤ mo ∧ mo ≤ 12 ∧ 1 ≤ d ∧ d ≤ 31 ∧ h ≤ 23 ∧ mi ≤ 59 ∧
             sec ≤ 59 ∧ us.length ≤ 6 then
            some ⟨y, mo, d, h, mi, sec, mic⟩
          else none
        | _, _, _, _, _, _, _ => none
      | _ => none
    | _, _ => none
  | _ => none

/-! ## Paths
`pathlib.PurePosixPath` values are modelled as their component lists; the
destination folder is given by the components of its absolute path.
`joinpath` splits each string argument on `/`, drops empty and `.`
components, and restarts from the filesystem root when an argument begins
with `/` (pathlib's absolute-segment rule).  `..` components are kept by
pathlib, so escaping the root is checked by normalising them lexically. -/

/-- Path components of one string segment (pathlib drops empty and `.`). -/
def splitSlash (s : String) : List String :=
  ((splitOnChar '/' s.data).map (fun l => String.mk l)).filter
    (fun c => c ≠ "" && c ≠ ".")

/-- `base.joinpath(*segs)` for an absolute `base` given by components. -/
def pyJoinAbs (base : List String) (segs : List String) : List String :=
  segs.foldl
    (fun acc seg =>
      if pyStartsWith '/' seg then splitSlash seg else acc ++ splitSlash seg)
    base

/-- Lexically resolve `..` components of an absolute path (at the
filesystem root `..` stays at the root, as in POSIX). -/
def normAbs (l : List String) : List String :=
  l.foldl (fun acc c => if c = ".." then acc.dropLast else acc ++ [c]) []

/-- Whether the absolute path `p`, after resolving `..`, stays under the
root given by components `dest`. -/
def underRoot (dest p : List String) : Bool :=
  dest.isPrefixOf (normAbs p)

/-- Python `str(PosixPath)` for an absolute path given by components. -/
def showPath (p : List String) : String :=
  p.foldl (fun acc c => acc ++ "/" ++ c) ""

/-! ## Manifest parsing (`_parse_getthis`, lines 60-88) -/

/-- One row of `GetThis.csv` (CSV decoding is out of scope; rows arrive
with their six relevant fields split out, all still raw strings). -/
structure GetThisRow where
  sampleName : String
  volumeId : String
  snapshotId : String
  fullName : String
  lastModificationDate : String
  lastAccessDate : String
deriving DecidableEq, Repr

/-- The value stored per `SampleName`: the resolved destination path and
the two integer timestamps (the `'path'`/`'mtime'`/`'atime'` dict). -/
structure TargetEntry where
  path : List String
  mtime : Int
  atime : Int
deriving DecidableEq, Repr

/-- `row['FullName'].replace('\\', '/')[1:]` (line 83): the first character
is removed unconditionally after backslash normalization. -/
def fullNameTail (fullName : String) : String := strTail (normSlash fullName)

/-- `destination_folder.joinpath(_naming_convention_volume_folder(...),
row['FullName'].replace('\\','/')[1:])` (line 83). -/
def resolveRowPath (dest : List String) (row : GetThisRow) : List String :=
  pyJoinAbs dest
    [naming_convention_volume_folder row.volumeId row.snapshotId,
     fullNameTail row.fullName]

/-- `_parse_getthis`: builds the SampleName → target dict row by row; a
date that `strptime` rejects raises `ValueError` out of the function.
`tz` is the host's UTC offset in seconds (see `pyNaiveTimestampInt`). -/
def parse_getthis (dest : List String) (tz : Int) :
    List GetThisRow → List (String × TargetEntry) →
    Except PyErr (List (String × TargetEntry))
  | [], acc => .ok acc
  | row :: rest, acc =>
    match parseFixedDateTime row.lastModificationDate,
          parseFixedDateTime row.lastAccessDate with
    | some mt, some av =>
      parse_getthis dest tz rest
        (pyDictInsert acc (normSlash row.sampleName)
          ⟨resolveRowPath dest row,
           pyNaiveTimestampInt mt tz, pyNaiveTimestampInt av tz⟩)
    | _, _ => .error .valueError

/-! ## Volume-label parsing (`_parse_volstats`, lines 90-112) -/

/-- One row of `volstats.csv`; an absent `MountPoint` column arrives as the
empty string (Python `row.get('MountPoint', '')`). -/
structure VolstatRow where
  volumeId : String
  mountPoint : String
deriving DecidableEq, Repr

/-- `_parse_volstats`: keep the first character of a non-empty MountPoint. -/
def parse_volstats (rows : List VolstatRow) : List (String × String) :=
  rows.foldl
    (fun acc row =>
      match row.mountPoint.data with
      | [] => acc
      | c :: _ => pyDictInsert acc row.volumeId ⟨[c]⟩)
    []

/-! ## Artifact writer (`_write_file`, lines 115-156)
The filesystem is a Python-dict-like map from absolute path components to
a file record; directory creation is implicit.  `ioFail` is the
environment's answer to "does an OS error occur while creating the parent
directories or writing?" — every such error is caught by the function's
broad `except` and turned into `False`.  `os.utime` runs only when both
times are truthy (non-`None` and non-zero). -/

structure FileRec where
  content : List Nat
  mtime : Option Int
  atime : Option Int
deriving DecidableEq, Repr

abbrev FileSys := List (List String × FileRec)

def fsLookup (fs : FileSys) (p : List String) : Option FileRec :=
  match fs with
  | [] => none
  | (p', r) :: rest => if p' = p then some r else fsLookup rest p

def fsInsert (fs : FileSys) (p : List String) (r : FileRec) : FileSys :=
  match fs with
  | [] => [(p, r)]
  | (p', r') :: rest =>
    if p' = p then (p, r) :: rest else (p', r') :: fsInsert rest p r

/-- Python truthiness of an optional integer (`if atime and mtime`). -/
def truthyInt : Option Int → Bool
  | none => false
  | some n => n ≠ 0

/-- `_write_file(file_path, content, atime, mtime)`: refuse if the file
exists; the existence check, directory creation and write sit inside the
`try`, so an I/O error there (`ioFail`) is caught and returns `False`.
`os.utime` (lines 152-154) runs AFTER the `try`/`except` block, only when
both times are truthy; an I/O error there (`utimeFail`) is uncaught and
raises `OSError` out of the function — at that point the file has already
been written, without restored timestamps. -/
def write_file (fs : FileSys) (file_path : List String) (content : List Nat)
    (atime mtime : Option Int) (ioFail utimeFail : Bool) :
    FileSys × Except PyErr Bool :=
  if (fsLookup fs file_path).isSome then (fs, .ok false)
  else if ioFail then (fs, .ok false)
  else if truthyInt atime && truthyInt mtime then
    if utimeFail then
      (fsInsert fs file_path ⟨content, none, none⟩, .error .osError)
    else (fsInsert fs file_path ⟨content, mtime, atime⟩, .ok true)
  else (fsInsert fs file_path ⟨content, none, none⟩, .ok true)

/-! ## Volume renaming (`_rename_volumes`, lines 245-266)
The pass is modelled on the list of names of the destination root's
children: for each map entry, in dict order, every child whose name has
the `VolumeID` as a prefix (the `glob(f'{volume_id}*')` match) is renamed
to `name.replace(volume_id, letter)` (every occurrence replaced, as
Python `str.replace` does). -/

/-- Python `s.replace(pat, rep)` by fuel-bounded left-to-right scanning;
each step consumes at least one character, so `s.length` fuel suffices. -/
def pyReplaceFuel (pat rep : List Char) : Nat → List Char → List Char
  | 0, s => s
  | _ + 1, [] => []
  | n + 1, c :: cs =>
    if pat ≠ [] && pat.isPrefixOf (c :: cs) then
      rep ++ pyReplaceFuel pat rep n ((c :: cs).drop pat.length)
    else c :: pyReplaceFuel pat rep n cs

/-- Python `s.replace(pat, rep)` (for a non-empty `pat`). -/
def pyStrReplace (s pat rep : String) : String :=
  ⟨pyReplaceFuel pat.data rep.data s.data.length s.data⟩

/-- One directory name through one map entry: rename when the `VolumeID`
is a prefix of the name, otherwise leave it alone (what the inner loop
does to a name when it does not crash). -/
def applyVolume (d : String) (volume_id letter : String) : String :=
  if volume_id.data.isPrefixOf d.data then pyStrReplace d volume_id letter
  else d

/-- One map entry over the children (one iteration of the outer loop):
walk the listing, renaming each `glob`-matched name; `dir.rename` onto a
path where another (non-empty volume) directory already exists raises an
uncaught `OSError`, aborting the whole pass mid-way.  `done` holds the
names already walked (renamed or not), `rest` the names still to walk. -/
def renameOneE (vid letter : String) :
    List String → List String → Except PyErr (List String)
  | done, [] => .ok done
  | done, d :: rest =>
    if vid.data.isPrefixOf d.data then
      if pyStrReplace d vid letter ≠ d &&
          (done.contains (pyStrReplace d vid letter) ||
            rest.contains (pyStrReplace d vid letter)) then .error .osError
      else renameOneE vid letter (done ++ [pyStrReplace d vid letter]) rest
    else renameOneE vid letter (done ++ [d]) rest

/-- One map entry over all children of the destination folder. -/
def renameStepE (dirs : List String) (volume_id letter : String) :
    Except PyErr (List String) :=
  renameOneE volume_id letter [] dirs

/-- `_rename_volumes(destination_folder, volumeid_mapped_to_drive_letter)`
as a function on the list of child names of the destination folder: each
map entry in dict order, raising out of the pass if a rename target
collides with an existing directory. -/
def rename_volumes (m : List (String × String)) (dirs : List String) :
    Except PyErr (List String) :=
  match m with
  | [] => .ok dirs
  | kv :: m' =>
    match renameStepE dirs kv.1 kv.2 with
    | .error e => .error e
    | .ok dirs' => rename_volumes m' dirs'

/-- All map entries applied to a single name, in map order. -/
def applyAll (m : List (String × String)) (d : String) : String :=
  m.foldl (fun s kv => applyVolume s kv.1 kv.2) d

/-! ## Archives and the recursive walker
(`_extract_artefacts_recusrive`, lines 158-243).  An archive source is
either an invalid container (opening raises `Bad7zFile`, whatever the
password situation) or a valid one with its eagerly-read entry list
(`readall`; entry names in a 7z listing are unique).  An entry's content
is raw bytes, a parsed `GetThis.csv` / `volstats.csv` row list (CSV
decoding being out of scope, a raw-bytes entry read as CSV is modelled as
decoding to no rows), or a nested 7z blob carrying its own source tree. -/

mutual
inductive EntryContent where
  | data (bytes : List Nat) : EntryContent
  | manifest (rows : List GetThisRow) : EntryContent
  | volstats (rows : List VolstatRow) : EntryContent
  | sub (a : ArchiveSrc) : EntryContent

inductive ArchiveSrc where
  | invalid : ArchiveSrc
  | valid (files : List (String × EntryContent)) : ArchiveSrc
end

/-- The byte content handed to `_write_file` (structured contents are
opaque byte streams whose exact bytes no claim depends on). -/
def entryBytes : EntryContent → List Nat
  | .data bytes => bytes
  | _ => []

/-- Opening an entry's bytes as a nested archive: only a 7z blob opens;
any other content raises `Bad7zFile`. -/
def subArcOf : EntryContent → ArchiveSrc
  | .sub a => a
  | _ => .invalid

/-- The observable state threaded through a run: the destination
filesystem, the lines written to the non-extracted log, the warnings
logged, and how many archive handles were opened and closed. -/
structure WalkState where
  fs : FileSys
  log : List String
  warnings : List String
  opens : Nat
  closes : Nat
deriving DecidableEq, Repr

/-- The per-run inputs of the walker: the destination root components, the
host UTC offset, the configured passwords, report-file names and report
destination, and the environment's I/O-failure oracle for writes. -/
structure WalkCtx where
  dest : List String
  tz : Int
  passwords : List (String × String)
  reportFiles : List String
  reportDest : Option (List String)
  ioFail : List String → Bool
  utimeFail : List String → Bool

/-- Python `f-string` of a manifest target dict (line 217 logs
`{getthis_mapping[filename]}`, the repr of the whole dict). -/
def reprTargetEntry (e : TargetEntry) : String :=
  "\x7b\x27path\x27: PosixPath(\x27" ++ showPath e.path ++
    "\x27), \x27mtime\x27: " ++ toString e.mtime ++
    ", \x27atime\x27: " ++ toString e.atime ++ "\x7d"

/-- The warning logged when opening an archive raises `Bad7zFile`. -/
def badArchiveWarning (archive_name : String) : String :=
  archive_name ++ " is not a valid 7z file"

/-- A `_write_file` call together with its log-on-failure obligation: the
state after the write, with the given line appended to the non-extracted
log when the write returned `False`. -/
def logFailStep (st : WalkState) (wr : FileSys × Bool) (line : String) :
    WalkState :=
  if wr.2 then { st with fs := wr.1 }
  else { st with fs := wr.1, log := st.log ++ [line] }

/-- The entry loop of `_extract_artefacts_recusrive` (lines 211-239),
parametrised by the recursive call used for nested `.7z` entries.  For
each entry in listing order: a manifest hit goes to `_write_file` (with a
log line on failure); otherwise a configured report file goes to
`_write_file` under the report directory (idem); otherwise a `.7z` name
recurses, a falsy sub-result contributes nothing, a dict sub-result has
its volstat map merged child-over-parent, and a raised error propagates;
anything else is skipped. -/
def extractEntriesWith
    (recur : ArchiveSrc → String → WalkState →
      WalkState × Except PyErr (Option (List (String × String))))
    (ctx : WalkCtx) (mapping : List (String × TargetEntry))
    (archive_name : String) :
    List (String × EntryContent) → List (String × String) → WalkState →
    WalkState × Except PyErr (List (String × String))
  | [], vm, st => (st, .ok vm)
  | (filename, content) :: rest, vm, st =>
    match pyLookup mapping filename with
    | some target =>
      match write_file st.fs target.path (entryBytes content)
          (some target.atime) (some target.mtime) (ctx.ioFail target.path)
          (ctx.utimeFail target.path) with
      | (fs', .error e) => ({ st with fs := fs' }, .error e)
      | (fs', .ok ok) =>
        let st' := logFailStep st (fs', ok)
          (archive_name ++ "," ++ filename ++ "," ++
            reprTargetEntry target ++ "\n")
        extractEntriesWith recur ctx mapping archive_name rest vm st'
    | none =>
      if ctx.reportFiles.contains (archive_name ++ "/" ++ filename) then
        match ctx.reportDest with
        | none => (st, .error .attributeError)
        | some rd =>
          let path := pyJoinAbs rd [filename]
          match write_file st.fs path (entryBytes content) none none
              (ctx.ioFail path) (ctx.utimeFail path) with
          | (fs', .error e) => ({ st with fs := fs' }, .error e)
          | (fs', .ok ok) =>
            let st' := logFailStep st (fs', ok)
              (archive_name ++ "," ++ filename ++ "," ++ showPath path ++
                "\n")
            extractEntriesWith recur ctx mapping archive_name rest vm st'
      else if strEndsWith filename ".7z" then
        match recur (subArcOf content) filename st with
        | (st', .error e) => (st', .error e)
        | (st', .ok none) =>
          extractEntriesWith recur ctx mapping archive_name rest vm st'
        | (st', .ok (some subVm)) =>
          extractEntriesWith recur ctx mapping archive_name rest
            (pyMerge vm subVm) st'
      else extractEntriesWith recur ctx mapping archive_name rest vm st

/-- Lines 203-204: parse `GetThis.csv` when present (a raised parse error
propagates to the walker). -/
def getthisOf (ctx : WalkCtx) (files : List (String × EntryContent)) :
    Except PyErr (List (String × TargetEntry)) :=
  match pyLookup files "GetThis.csv" with
  | some (.manifest rows) => parse_getthis ctx.dest ctx.tz rows []
  | _ => .ok []

/-- Lines 207-208: parse `volstats.csv` when present. -/
def volstatsOf (files : List (String × EntryContent)) :
    List (String × String) :=
  match pyLookup files "volstats.csv" with
  | some (.volstats rows) => parse_volstats rows
  | _ => []

/-- `_extract_artefacts_recusrive(archive, ...)`.  `fuel` bounds the
recursion depth (Python's own recursion limit); exhausting it raises.  An
invalid container logs a warning and returns falsy `False` (`Option.none`)
without raising; a valid one is opened (one handle), its `GetThis.csv`
and `volstats.csv` are parsed, the entry loop runs, and the handle is
closed on the normal path only — the close (line 241) is not in a
`finally`, so an error raised in between propagates past it. -/
def extract_artefacts_recusrive (ctx : WalkCtx) :
    Nat → ArchiveSrc → String → WalkState →
    WalkState × Except PyErr (Option (List (String × String)))
  | 0, _, _, st => (st, .error .recursionError)
  | fuel + 1, arc, archive_name, st =>
    match arc with
    | .invalid =>
      ({ st with warnings := st.warnings ++ [badArchiveWarning archive_name] },
       .ok none)
    | .valid files =>
      let st1 := { st with opens := st.opens + 1 }
      match getthisOf ctx files with
      | .error e => (st1, .error e)
      | .ok mapping =>
        match extractEntriesWith
            (fun a nm s => extract_artefacts_recusrive ctx fuel a nm s)
            ctx mapping archive_name files (volstatsOf files) st1 with
        | (st2, .error e) => (st2, .error e)
        | (st2, .ok vm) =>
          ({ st2 with closes := st2.closes + 1 }, .ok (some vm))

/-! ## Top-level driver (`artefact_rebuilder`, lines 269-325) -/

/-- The configuration options read from the TOML file (TOML loading is out
of scope). -/
structure RebuildConfig where
  passwords : List (String × String)
  reportFiles : List String
  reportTargetDirectory : String
deriving Repr

/-- The name of the immediate child directory of `dest` that the file path
`p` lies in, when it lies in one. -/
def firstCompUnder (dest p : List String) : Option String :=
  match dest.isPrefixOf p, p.drop dest.length with
  | true, d :: _ :: _ => some d
  | _, _ => none

/-- The child directory names of the destination root created by the
files written so far (what `destination_folder.glob` iterates over). -/
def dirsUnder (dest : List String) (fs : FileSys) : List String :=
  fs.foldl
    (fun acc pr =>
      match firstCompUnder dest pr.1 with
      | some d => if acc.contains d then acc else acc ++ [d]
      | none => acc)
    []

/-- What a run of `artefact_rebuilder` produces: the final state, the
final child-directory names of the destination root (after renaming, when
it ran), and the outcome — `Except.error` is an exception escaping the
function, `.ok true` its `return True`. -/
structure RebuildOutcome where
  st : WalkState
  dirs : List String
  result : Except PyErr Bool

/-- `artefact_rebuilder(archive_path, destination_folder, ...)`: write the
log header, run the recursive extraction with archive name `'.'`, then —
when `rename_volumes` is set — rename the volume directories using the
aggregated volstat map; subscripting the walker's falsy failure value
(`extract_results['volstat']` on `False`, line 323) raises a `TypeError`. -/
def artefact_rebuilder (fuel : Nat) (archive : ArchiveSrc)
    (destination_folder : List String) (config : Option RebuildConfig)
    (rename_volumes_flag : Bool) (tz : Int) (ioFail : List String → Bool)
    (utimeFail : List String → Bool) : RebuildOutcome :=
  let ctx : WalkCtx :=
    { dest := destination_folder
      tz := tz
      passwords := match config with | some c => c.passwords | none => []
      reportFiles := match config with | some c => c.reportFiles | none => []
      reportDest :=
        match config with
        | some c => some (pyJoinAbs destination_folder [c.reportTargetDirectory])
        | none => none
      ioFail := ioFail
      utimeFail := utimeFail }
  let st0 : WalkState :=
    ⟨[], ["Archive Name,Artefact Name,Expected Target Path\n"], [], 0, 0⟩
  match extract_artefacts_recusrive ctx fuel archive "." st0 with
  | (st, .error e) => ⟨st, dirsUnder destination_folder st.fs, .error e⟩
  | (st, .ok r) =>
    if rename_volumes_flag then
      match r with
      | none => ⟨st, dirsUnder destination_folder st.fs, .error .typeError⟩
      | some vm =>
        match rename_volumes vm (dirsUnder destination_folder st.fs) with
        | .error e => ⟨st, dirsUnder destination_folder st.fs, .error e⟩
        | .ok newDirs => ⟨st, newDirs, .ok true⟩
    else ⟨st, dirsUnder destination_folder st.fs, .ok true⟩

/-! ## Helper lemmas -/

theorem fsLookup_fsInsert_self (fs : FileSys) (p : List String) (r : FileRec) :
    fsLookup (fsInsert fs p r) p = some r := by
  induction fs with
  | nil => simp [fsInsert, fsLookup]
  | cons hd tl ih =>
    obtain ⟨p', r'⟩ := hd
    by_cases h : p' = p
    · simp [fsInsert, fsLookup, h]
    · simp [fsInsert, fsLookup, h, ih]

theorem pyLookup_pyDictInsert {α : Type} (m : List (String × α))
    (k k' : String) (v : α) :
    pyLookup (pyDictInsert m k v) k' =
      if k' = k then some v else pyLookup m k' := by
  induction m with
  | nil =>
    by_cases h : k' = k
    · simp [pyDictInsert, pyLookup, h]
    · have h' : ¬ k = k' := Ne.symm h
      simp [pyDictInsert, pyLookup, h, h']
  | cons hd tl ih =>
    obtain ⟨a, b⟩ := hd
    by_cases ha : a = k
    · subst ha
      by_cases hk : k' = a
      · simp [pyDictInsert, pyLookup, hk]
      · have hk' : ¬ a = k' := Ne.symm hk
        simp [pyDictInsert, pyLookup, hk, hk']
    · by_cases hk : a = k'
      · subst hk
        simp [pyDictInsert, pyLookup, ha]
      · simp [pyDictInsert, pyLookup, ha, hk, ih]

theorem pyLookup_eq_none_iff {α : Type} (m : List (String × α)) (k : String) :
    pyLookup m k = none ↔ k ∉ m.map Prod.fst := by
  induction m with
  | nil => simp [pyLookup]
  | cons hd tl ih =>
    obtain ⟨a, b⟩ := hd
    by_cases h : a = k
    · simp [pyLookup, h]
    · have h' : ¬ k = a := Ne.symm h
      simp [pyLookup, h, h', ih]

theorem isPrefixOf_append_self (l t : List String) :
    l.isPrefixOf (l ++ t) = true := by
  induction l with
  | nil => simp [List.isPrefixOf]
  | cons a l ih => simp [List.isPrefixOf, ih]

theorem foldl_normStep_no_dotdot (l : List String) :
    ∀ acc, ".." ∉ l →
      l.foldl (fun acc c => if c = ".." then acc.dropLast else acc ++ [c]) acc
        = acc ++ l := by
  induction l with
  | nil => intro acc _; simp
  | cons a l ih =>
    intro acc h
    have ha : ¬ a = ".." := fun hx => h (hx ▸ List.mem_cons_self a l)
    have h' : ".." ∉ l := fun hx => h (List.mem_cons_of_mem _ hx)
    simp [List.foldl_cons, ha, ih _ h']

theorem normAbs_no_dotdot (l : List String) (h : ".." ∉ l) : normAbs l = l := by
  simpa [normAbs] using foldl_normStep_no_dotdot l [] h

/-! ## Claim C4 -/

/-- C4: for every manifest row, the computed volume-folder name equals
`VolumeID` exactly when `SnapshotID` is the all-zero GUID sentinel, and
equals `"VolumeID (vsc SnapshotID)"` for every other `SnapshotID`. -/
theorem C4_volume_folder_name (volume_id snapshot_id : String) :
    (snapshot_id = zeroGuid →
      naming_convention_volume_folder volume_id snapshot_id = volume_id) ∧
    (snapshot_id ≠ zeroGuid →
      naming_convention_volume_folder volume_id snapshot_id =
        volume_id ++ " (vsc " ++ snapshot_id ++ ")") := by
  constructor <;> intro h <;>
    simp [naming_convention_volume_folder, h]

theorem C4_volume_folder_name_witness :
    naming_convention_volume_folder "V"
        "\x7b00000000-0000-0000-0000-000000000000\x7d" = "V" ∧
    naming_convention_volume_folder "V" "\x7bs1\x7d" = "V (vsc \x7bs1\x7d)" :=
  ⟨(C4_volume_folder_name "V" "\x7b00000000-0000-0000-0000-000000000000\x7d").1
      (by decide),
   (C4_volume_folder_name "V" "\x7bs1\x7d").2 (by decide)⟩

/-! ## Claim C10 -/

/-- C10: manifest resolution removes the first character of `FullName`
unconditionally after backslash-to-slash normalization; in particular a
`FullName` that does not begin with a path separator loses its first
character instead of being preserved. -/
theorem C10_fullname_first_char_dropped (fn : String) (h : fn.data ≠ [])
    (_h1 : fn.data.head? ≠ some '\\') (_h2 : fn.data.head? ≠ some '/') :
    (fullNameTail fn).data = (normSlash fn).data.drop 1 ∧
    fullNameTail fn ≠ normSlash fn := by
  refine ⟨rfl, ?_⟩
  intro he
  have hlen : (fullNameTail fn).data.length = (normSlash fn).data.length := by
    rw [he]
  have hd : (fullNameTail fn).data.length = fn.data.length - 1 := by
    simp [fullNameTail, strTail, normSlash]
  have hn : (normSlash fn).data.length = fn.data.length := by
    simp [normSlash]
  have hpos : 0 < fn.data.length := List.length_pos.mpr h
  omega

theorem C10_fullname_first_char_dropped_witness :
    (fullNameTail "Windows/foo").data = (normSlash "Windows/foo").data.drop 1 ∧
    fullNameTail "Windows/foo" ≠ normSlash "Windows/foo" :=
  C10_fullname_first_char_dropped "Windows/foo" (by decide) (by decide)
    (by decide)

/-! ## Claim C2 -/

/-- C2 fails on the code: the `try` block ends before `os.utime`
(lines 152-154), so an I/O failure while restoring timestamps — reached
after every successful artifact write with truthy times — raises
`OSError` out of `_write_file` instead of returning failure; the file is
left written without its timestamps. -/
theorem C2_utime_raises_counterexample :
    write_file [] ["d", "f"] [2] (some 5) (some 7) false true =
      ([(["d", "f"], ⟨[2], none, none⟩)], .error .osError) := by
  decide

/-- C2 amended: the writer refuses to overwrite an existing file (the
filesystem is unchanged and it returns failure); an I/O failure in the
existence check, directory creation or write — inside the `try` — is
caught and returns failure without raising; but an I/O failure in
`os.utime`, outside the `try`, raises after the file was already written
(without restored timestamps); and after every write attempt that created
the file, raising or not, re-running a write to the same path leaves the
filesystem unchanged and fails — a re-run never overwrites a previously
written artifact. -/
theorem C2_write_file_contract (fs : FileSys) (path : List String)
    (content : List Nat) (atime mtime : Option Int)
    (ioFail utimeFail : Bool) :
    (∀ r, fsLookup fs path = some r →
      write_file fs path content atime mtime ioFail utimeFail =
        (fs, .ok false)) ∧
    (fsLookup fs path = none →
      write_file fs path content atime mtime true utimeFail =
        (fs, .ok false)) ∧
    (fsLookup fs path = none →
      (truthyInt atime && truthyInt mtime) = true →
      write_file fs path content atime mtime false true =
        (fsInsert fs path ⟨content, none, none⟩, .error .osError)) ∧
    (∀ fs', write_file fs path content atime mtime ioFail utimeFail =
        (fs', .ok true) →
      ∀ c' a' m' io' ut', write_file fs' path c' a' m' io' ut' =
        (fs', .ok false)) ∧
    (∀ fs' e, write_file fs path content atime mtime ioFail utimeFail =
        (fs', .error e) →
      ∀ c' a' m' io' ut', write_file fs' path c' a' m' io' ut' =
        (fs', .ok false)) := by
  refine ⟨?_, ?_, ?_, ?_, ?_⟩
  · intro r hr
    simp [write_file, hr]
  · intro hn
    simp [write_file, hn]
  · intro hn htr
    simp [write_file, hn, htr]
  · intro fs' hw c' a' m' io' ut'
    cases hy : fsLookup fs path with
    | some r => simp [write_file, hy] at hw
    | none =>
      cases hio : ioFail with
      | true => rw [hio] at hw; simp [write_file, hy] at hw
      | false =>
        rw [hio] at hw
        simp only [write_file, hy, Option.isSome_none, Bool.false_eq_true,
          if_false, ite_false] at hw
        by_cases htr : (truthyInt atime && truthyInt mtime) = true
        · rw [if_pos htr] at hw
          cases hut : utimeFail with
          | true => rw [hut] at hw; simp at hw
          | false =>
            rw [hut] at hw
            simp only [Bool.false_eq_true, if_false, ite_false,
              Prod.mk.injEq] at hw
            obtain ⟨hfs, -⟩ := hw
            rw [← hfs]
            simp [write_file, fsLookup_fsInsert_self]
        · rw [if_neg htr] at hw
          simp only [Prod.mk.injEq] at hw
          obtain ⟨hfs, -⟩ := hw
          rw [← hfs]
          simp [write_file, fsLookup_fsInsert_self]
  · intro fs' e hw c' a' m' io' ut'
    cases hy : fsLookup fs path with
    | some r => simp [write_file, hy] at hw
    | none =>
      cases hio : ioFail with
      | true => rw [hio] at hw; simp [write_file, hy] at hw
      | false =>
        rw [hio] at hw
        simp only [write_file, hy, Option.isSome_none, Bool.false_eq_true,
          if_false, ite_false] at hw
        by_cases htr : (truthyInt atime && truthyInt mtime) = true
        · rw [if_pos htr] at hw
          cases hut : utimeFail with
          | false => rw [hut] at hw; simp at hw
          | true =>
            rw [hut] at hw
            simp only [if_true, ite_true, Prod.mk.injEq] at hw
            obtain ⟨hfs, -⟩ := hw
            rw [← hfs]
            simp [write_file, fsLookup_fsInsert_self]
        · rw [if_neg htr] at hw
          simp at hw

theorem C2_write_file_contract_witness :
    write_file [(["d", "f"], ⟨[1], none, none⟩)] ["d", "f"] [2] none none
        false false = ([(["d", "f"], ⟨[1], none, none⟩)], .ok false) ∧
    write_file [] ["d", "f"] [2] none none true false = ([], .ok false) ∧
    write_file [] ["d", "f"] [2] (some 5) (some 7) false true =
      ([(["d", "f"], ⟨[2], none, none⟩)], .error .osError) ∧
    write_file [(["d", "f"], ⟨[2], some 7, some 5⟩)] ["d", "f"] [3] none none
        false false = ([(["d", "f"], ⟨[2], some 7, some 5⟩)], .ok false) ∧
    write_file [(["d", "f"], ⟨[2], none, none⟩)] ["d", "f"] [3] none none
        false false = ([(["d", "f"], ⟨[2], none, none⟩)], .ok false) :=
  ⟨(C2_write_file_contract [(["d", "f"], ⟨[1], none, none⟩)] ["d", "f"] [2]
      none none false false).1 ⟨[1], none, none⟩ (by decide),
   (C2_write_file_contract [] ["d", "f"] [2] none none true false).2.1
      (by decide),
   (C2_write_file_contract [] ["d", "f"] [2] (some 5) (some 7) false
      true).2.2.1 (by decide) (by decide),
   (C2_write_file_contract [] ["d", "f"] [2] (some 5) (some 7) false
      false).2.2.2.1 [(["d", "f"], ⟨[2], some 7, some 5⟩)] (by decide)
      [3] none none false false,
   (C2_write_file_contract [] ["d", "f"] [2] (some 5) (some 7) false
      true).2.2.2.2 [(["d", "f"], ⟨[2], none, none⟩)] .osError (by decide)
      [3] none none false false⟩

/-! ## Claim C5 -/

/-- C5: the walker's merge of a sub-archive's volume-label map into the
parent's aggregated map (the `pyMerge` at line 239) is child-over-parent:
for maps whose keys are unique (Python dict keys always are), a key
present in the child resolves to the child's value and a key present only
in the parent keeps the parent's value. -/
theorem C5_merge_child_overrides (a b : List (String × String)) (k : String)
    (hb : (b.map Prod.fst).Nodup) :
    pyLookup (pyMerge a b) k =
      match pyLookup b k with
      | some v => some v
      | none => pyLookup a k := by
  induction b generalizing a with
  | nil => simp [pyMerge, pyLookup]
  | cons kv rest ih =>
    obtain ⟨k1, v1⟩ := kv
    rw [List.map_cons, List.nodup_cons] at hb
    obtain ⟨hk1, hrest⟩ := hb
    have hstep : pyMerge a ((k1, v1) :: rest) =
        pyMerge (pyDictInsert a k1 v1) rest := rfl
    rw [hstep, ih _ hrest]
    cases hr : pyLookup rest k with
    | some v =>
      have hkin : ¬ k1 = k := by
        intro hx
        subst hx
        rw [(pyLookup_eq_none_iff rest k1).mpr hk1] at hr
        exact Option.noConfusion hr
      simp [pyLookup, hkin, hr]
    | none =>
      by_cases hk : k = k1
      · subst hk
        simp [pyLookup, pyLookup_pyDictInsert, hr]
      · have hk' : ¬ k1 = k := Ne.symm hk
        simp [pyLookup, pyLookup_pyDictInsert, hr, hk, hk']

theorem C5_merge_child_overrides_witness :
    pyLookup (pyMerge [("V1", "C")] [("V1", "D")]) "V1" = some "D" := by
  have h := C5_merge_child_overrides [("V1", "C")] [("V1", "D")] "V1"
    (by decide)
  simpa using h

/-! ## Claim C1 -/

/-- A manifest row whose `FullName` climbs out of the destination with
`..` components. -/
def rowTraversal : GetThisRow :=
  ⟨"s1", "V", "\x7b00000000-0000-0000-0000-000000000000\x7d",
   "\\..\\..\\..\\etc\\passwd",
   "2023-01-02 03:04:05.123456", "2023-01-02 03:04:05.123456"⟩

/-- C1 fails on the code: nothing rejects or neutralizes `..` components
of `FullName`, so the manifest row `rowTraversal` resolves (and is in
fact produced by `_parse_getthis`) to a path that, once its `..`
components are resolved, escapes the destination root `/data/out`. -/
theorem C1_escape_counterexample :
    parse_getthis ["data", "out"] 0 [rowTraversal] [] =
      .ok [("s1",
        ⟨["data", "out", "V", "..", "..", "..", "etc", "passwd"],
         1672628645, 1672628645⟩)] ∧
    normAbs ["data", "out", "V", "..", "..", "..", "etc", "passwd"] =
      ["etc", "passwd"] ∧
    underRoot ["data", "out"]
      (resolveRowPath ["data", "out"] rowTraversal) = false := by
  decide

/-- C1 amended: the resolved destination path of a manifest row stays
under the destination root provided the volume folder name and the
normalized, first-character-stripped `FullName` are relative (no leading
slash) and contain no `..` component (and the destination root itself has
none); a `FullName` with `..` components or an absolute prefix can escape
(see the counterexample). -/
theorem C1_resolved_under_root (dest : List String) (row : GetThisRow)
    (hdest : ".." ∉ dest)
    (hv : pyStartsWith '/'
      (naming_convention_volume_folder row.volumeId row.snapshotId) = false)
    (hv2 : ".." ∉ splitSlash
      (naming_convention_volume_folder row.volumeId row.snapshotId))
    (ht : pyStartsWith '/' (fullNameTail row.fullName) = false)
    (ht2 : ".." ∉ splitSlash (fullNameTail row.fullName)) :
    underRoot dest (resolveRowPath dest row) = true := by
  have hpath : resolveRowPath dest row =
      dest ++
        (splitSlash
          (naming_convention_volume_folder row.volumeId row.snapshotId) ++
         splitSlash (fullNameTail row.fullName)) := by
    simp [resolveRowPath, pyJoinAbs, hv, ht, List.append_assoc]
  rw [underRoot, hpath, normAbs_no_dotdot]
  · exact isPrefixOf_append_self dest _
  · intro hx
    rcases List.mem_append.mp hx with hx | hx
    · exact hdest hx
    · rcases List.mem_append.mp hx with hx | hx
      · exact hv2 hx
      · exact ht2 hx

theorem C1_resolved_under_root_witness :
    underRoot ["data", "out"]
      (resolveRowPath ["data", "out"]
        ⟨"abc", "V", "\x7b00000000-0000-0000-0000-000000000000\x7d",
         "\\Windows\\System32\\foo.txt",
         "2023-01-02 03:04:05.123456", "2023-01-02 03:04:05.123456"⟩) =
      true :=
  C1_resolved_under_root ["data", "out"]
    ⟨"abc", "V", "\x7b00000000-0000-0000-0000-000000000000\x7d",
     "\\Windows\\System32\\foo.txt",
     "2023-01-02 03:04:05.123456", "2023-01-02 03:04:05.123456"⟩
    (by decide) (by decide) (by decide) (by decide) (by decide)

/-! ## Claim C7 -/

/-- A manifest row carrying the claim's timestamp. -/
def rowSample : GetThisRow :=
  ⟨"abc", "V", "\x7b00000000-0000-0000-0000-000000000000\x7d",
   "\\Windows\\foo.txt",
   "2023-01-02 03:04:05.123456", "2023-01-02 03:04:05.123456"⟩

/-- C7 fails on the code: `strptime` yields a naive datetime whose
`.timestamp()` is interpreted in the host's local timezone, not UTC.  On
a host at UTC offset +3600 the row with
`LastModificationDate = "2023-01-02 03:04:05.123456"` resolves to mtime
1672625045, not the second-truncated UTC epoch 1672628645. -/
theorem C7_utc_counterexample :
    parseFixedDateTime "2023-01-02 03:04:05.123456" =
      some ⟨2023, 1, 2, 3, 4, 5, 123456⟩ ∧
    pyNaiveTimestampInt ⟨2023, 1, 2, 3, 4, 5, 123456⟩ 3600 ≠ 1672628645 ∧
    parse_getthis ["dest"] 3600 [rowSample] [] =
      .ok [("abc",
        ⟨["dest", "V", "Windows", "foo.txt"], 1672625045, 1672625045⟩)] := by
  decide

/-- C7 amended: the row's `LastModificationDate` is interpreted in the
host's local timezone and sub-second precision is discarded: for every
host UTC offset (within a day either way, keeping the instant after the
epoch), the stored mtime is `1672628645 - offset`, the second-truncated
local-time epoch; it equals the UTC-interpreted value 1672628645 exactly
when the offset is zero. -/
theorem C7_timestamp_local (tz : Int) (h1 : -86400 ≤ tz) (h2 : tz ≤ 86400) :
    parse_getthis ["dest"] tz [rowSample] [] =
      .ok [("abc",
        ⟨["dest", "V", "Windows", "foo.txt"],
         1672628645 - tz, 1672628645 - tz⟩)] := by
  have hp : parseFixedDateTime "2023-01-02 03:04:05.123456" =
      some ⟨2023, 1, 2, 3, 4, 5, 123456⟩ := by decide
  have he : epochSecondsNaive ⟨2023, 1, 2, 3, 4, 5, 123456⟩ = 1672628645 := by
    decide
  have hts : pyNaiveTimestampInt ⟨2023, 1, 2, 3, 4, 5, 123456⟩ tz =
      1672628645 - tz := by
    simp only [pyNaiveTimestampInt, he]
    rw [if_pos]
    exact Or.inl (by omega)
  have hrp : resolveRowPath ["dest"] rowSample =
      ["dest", "V", "Windows", "foo.txt"] := by decide
  have hsn : normSlash rowSample.sampleName = "abc" := by decide
  simp [parse_getthis, rowSample, hp, hts, pyDictInsert]
  constructor
  · simpa [rowSample] using hsn
  · simpa [rowSample] using hrp

theorem C7_timestamp_local_witness :
    parse_getthis ["dest"] 3600 [rowSample] [] =
      .ok [("abc",
        ⟨["dest", "V", "Windows", "foo.txt"],
         1672628645 - 3600, 1672628645 - 3600⟩)] :=
  C7_timestamp_local 3600 (by decide) (by decide)

/-! ## Claim C6 -/

/-- No map key is a name-match for `d` (no glob pattern of the pass would
select it). -/
def NoKeyMatch (m : List (String × String)) (d : String) : Prop :=
  ∀ p ∈ m, p.1.data.isPrefixOf d.data = false

/-- The name starts with the first character of one of the map's mount
letters (it is the result of a rename). -/
def LetterHead (m : List (String × String)) (d : String) : Prop :=
  ∃ q ∈ m, d.data.head? = q.2.data.head?

theorem pyReplaceFuel_head (pat rep s : List Char) (hp : pat ≠ [])
    (hm : pat.isPrefixOf s = true) (hr : rep ≠ []) :
    (pyReplaceFuel pat rep s.length s).head? = rep.head? := by
  cases s with
  | nil =>
    cases pat with
    | nil => exact absurd rfl hp
    | cons a l => simp [List.isPrefixOf] at hm
  | cons c cs =>
    show (pyReplaceFuel pat rep (cs.length + 1) (c :: cs)).head? = rep.head?
    rw [pyReplaceFuel]
    rw [if_pos (by simp [hp, hm])]
    cases rep with
    | nil => exact absurd rfl hr
    | cons r rs => simp

theorem applyVolume_no_match (d k l : String)
    (h : k.data.isPrefixOf d.data = false) : applyVolume d k l = d := by
  simp [applyVolume, h]

theorem applyVolume_of_match (d k l : String)
    (h : k.data.isPrefixOf d.data = true) :
    applyVolume d k l = pyStrReplace d k l := by
  simp only [applyVolume]
  rw [if_pos h]

theorem applyVolume_match_head (d k l : String) (hk : k.data ≠ [])
    (hl : l.data ≠ []) (h : k.data.isPrefixOf d.data = true) :
    (applyVolume d k l).data.head? = l.data.head? := by
  simp only [applyVolume, h, if_true, pyStrReplace]
  exact pyReplaceFuel_head k.data l.data d.data hk h hl

theorem letterHead_noKeyMatch (m : List (String × String))
    (H1 : ∀ p ∈ m, p.1.data ≠ [] ∧ p.2.data ≠ [])
    (H2 : ∀ p ∈ m, ∀ q ∈ m, p.1.data.head? ≠ q.2.data.head?)
    (d : String) (hd : LetterHead m d) : NoKeyMatch m d := by
  obtain ⟨q, hq, hhead⟩ := hd
  intro p hp
  cases hx : p.1.data.isPrefixOf d.data with
  | false => rfl
  | true =>
    exfalso
    have hp1 := (H1 p hp).1
    have hheads : p.1.data.head? = d.data.head? := by
      cases hk : p.1.data with
      | nil => exact absurd hk hp1
      | cons a as =>
        cases hdd : d.data with
        | nil => rw [hk, hdd] at hx; simp [List.isPrefixOf] at hx
        | cons b bs =>
          rw [hk, hdd] at hx
          simp only [List.isPrefixOf, Bool.and_eq_true, beq_iff_eq] at hx
          simp [hx.1]
    exact H2 p hp q hq (hheads.trans hhead)

theorem applyAll_of_letterHead (m : List (String × String))
    (H1 : ∀ p ∈ m, p.1.data ≠ [] ∧ p.2.data ≠ [])
    (H2 : ∀ p ∈ m, ∀ q ∈ m, p.1.data.head? ≠ q.2.data.head?)
    (s : List (String × String)) (hs : ∀ p ∈ s, p ∈ m) (d : String)
    (hd : LetterHead m d) :
    s.foldl (fun x kv => applyVolume x kv.1 kv.2) d = d := by
  induction s with
  | nil => rfl
  | cons kv s ih =>
    have hm := letterHead_noKeyMatch m H1 H2 d hd kv
      (hs kv (List.mem_cons_self kv s))
    rw [List.foldl_cons, applyVolume_no_match _ _ _ hm]
    exact ih (fun p hp => hs p (List.mem_cons_of_mem _ hp))

theorem applyAll_cases (m : List (String × String))
    (H1 : ∀ p ∈ m, p.1.data ≠ [] ∧ p.2.data ≠ [])
    (H2 : ∀ p ∈ m, ∀ q ∈ m, p.1.data.head? ≠ q.2.data.head?) :
    ∀ (s : List (String × String)), (∀ p ∈ s, p ∈ m) → ∀ d,
      (s.foldl (fun x kv => applyVolume x kv.1 kv.2) d = d ∧
        ∀ p ∈ s, p.1.data.isPrefixOf d.data = false) ∨
      LetterHead m (s.foldl (fun x kv => applyVolume x kv.1 kv.2) d) := by
  intro s
  induction s with
  | nil => intro _ d; left; exact ⟨rfl, by simp⟩
  | cons kv s ih =>
    intro hsub d
    have hkvm : kv ∈ m := hsub kv (List.mem_cons_self kv s)
    have hsub' : ∀ p ∈ s, p ∈ m := fun p hp =>
      hsub p (List.mem_cons_of_mem _ hp)
    cases hmatch : kv.1.data.isPrefixOf d.data with
    | false =>
      rw [List.foldl_cons, applyVolume_no_match _ _ _ hmatch]
      rcases ih hsub' d with ⟨heq, hall⟩ | hlh
      · left
        refine ⟨heq, ?_⟩
        intro p hp
        rcases List.mem_cons.mp hp with rfl | hp'
        · exact hmatch
        · exact hall p hp'
      · right; exact hlh
    | true =>
      right
      have hd' : LetterHead m (applyVolume d kv.1 kv.2) :=
        ⟨kv, hkvm, applyVolume_match_head d kv.1 kv.2 (H1 kv hkvm).1
          (H1 kv hkvm).2 hmatch⟩
      rw [List.foldl_cons,
        applyAll_of_letterHead m H1 H2 s hsub' _ hd']
      exact hd'

theorem renameOneE_no_match (vid letter : String) :
    ∀ (rest done : List String),
      (∀ d ∈ rest, vid.data.isPrefixOf d.data = false) →
      renameOneE vid letter done rest = .ok (done ++ rest) := by
  intro rest
  induction rest with
  | nil => intro done _; simp [renameOneE]
  | cons d rest' ih =>
    intro done h
    have hd : vid.data.isPrefixOf d.data = false :=
      h d (List.mem_cons_self d rest')
    have h' : ∀ x ∈ rest', vid.data.isPrefixOf x.data = false :=
      fun x hx => h x (List.mem_cons_of_mem _ hx)
    simp only [renameOneE, hd, Bool.false_eq_true, ite_false, ih _ h']
    simp

theorem renameOneE_ok_map (vid letter : String) :
    ∀ (rest done out : List String),
      renameOneE vid letter done rest = .ok out →
      out = done ++ rest.map (fun d => applyVolume d vid letter) := by
  intro rest
  induction rest with
  | nil =>
    intro done out h
    simp only [renameOneE, Except.ok.injEq] at h
    simp [← h]
  | cons d rest' ih =>
    intro done out h
    cases hmatch : vid.data.isPrefixOf d.data with
    | true =>
      rw [renameOneE] at h
      rw [if_pos hmatch] at h
      cases hcol : (pyStrReplace d vid letter ≠ d &&
          (done.contains (pyStrReplace d vid letter) ||
            rest'.contains (pyStrReplace d vid letter)) : Bool) with
      | true => rw [hcol] at h; simp at h
      | false =>
        rw [hcol] at h
        simp only [Bool.false_eq_true, ite_false] at h
        have hx := ih (done ++ [pyStrReplace d vid letter]) out h
        rw [hx, List.map_cons, applyVolume_of_match d vid letter hmatch]
        simp
    | false =>
      rw [renameOneE] at h
      rw [if_neg (by simp [hmatch])] at h
      have hx := ih (done ++ [d]) out h
      rw [hx, List.map_cons, applyVolume_no_match d vid letter hmatch]
      simp

theorem rename_volumes_ok_map (m : List (String × String)) :
    ∀ (dirs out : List String), rename_volumes m dirs = .ok out →
      out = dirs.map (fun d => applyAll m d) := by
  induction m with
  | nil =>
    intro dirs out h
    simp only [rename_volumes, Except.ok.injEq] at h
    simp [← h, applyAll]
  | cons kv m' ih =>
    intro dirs out h
    rw [rename_volumes] at h
    cases hs : renameStepE dirs kv.1 kv.2 with
    | error e => rw [hs] at h; simp at h
    | ok mid =>
      rw [hs] at h
      have hmid : mid = dirs.map (fun d => applyVolume d kv.1 kv.2) := by
        simpa using renameOneE_ok_map kv.1 kv.2 dirs [] mid hs
      have hout := ih mid out h
      rw [hout, hmid, List.map_map]
      rfl

theorem rename_volumes_of_noKeyMatch (m : List (String × String)) :
    ∀ (s : List (String × String)), (∀ p ∈ s, p ∈ m) →
    ∀ (dirs : List String), (∀ d ∈ dirs, NoKeyMatch m d) →
      rename_volumes s dirs = .ok dirs := by
  intro s
  induction s with
  | nil => intro _ dirs _; rfl
  | cons kv s' ih =>
    intro hsub dirs hnk
    have hkvm : kv ∈ m := hsub kv (List.mem_cons_self kv s')
    have hstep : renameStepE dirs kv.1 kv.2 = .ok dirs := by
      have hno : ∀ d ∈ dirs, kv.1.data.isPrefixOf d.data = false :=
        fun d hd => hnk d hd kv hkvm
      simpa [renameStepE] using renameOneE_no_match kv.1 kv.2 dirs [] hno
    rw [rename_volumes, hstep]
    exact ih (fun p hp => hsub p (List.mem_cons_of_mem _ hp)) dirs hnk

/-- C6 fails on the code as a universal statement over maps.  Renaming is
a sequential pass, so with the map `D -> X, C -> D` one pass over the
single directory `C` yields `D` and a second pass over that result yields
`X` — a different tree.  Worse, a map whose letters collide
(`\x7bv1\x7d -> C, \x7bv2\x7d -> C` over directories `\x7bv1\x7d`,
`\x7bv2\x7d`) renames `\x7bv1\x7d` to `C` and then crashes with an
uncaught `OSError` when renaming `\x7bv2\x7d` onto the existing
non-empty `C`, leaving a raw-VolumeID directory for a second pass to
find. -/
theorem C6_renamer_not_idempotent :
    rename_volumes [("D", "X"), ("C", "D")] ["C"] = .ok ["D"] ∧
    rename_volumes [("D", "X"), ("C", "D")] ["D"] = .ok ["X"] ∧
    rename_volumes [("\x7bv1\x7d", "C"), ("\x7bv2\x7d", "C")]
      ["\x7bv1\x7d", "\x7bv2\x7d"] = .error .osError := by
  decide

/-- C6 amended: whenever a first application of the Renamer completes
without raising, and the map has no empty `VolumeID` key, no empty mount
letter, and no key whose first character equals any mapped letter's first
character (true of real DFIR-Orc data, where a `VolumeID` starts with a
brace and letters are drive letters), then no resulting directory name
starts with any key, so a second application with the same map renames
nothing and returns the same tree. -/
theorem C6_renamer_idempotent (m : List (String × String))
    (dirs dirs' : List String)
    (H1 : ∀ p ∈ m, p.1.data ≠ [] ∧ p.2.data ≠ [])
    (H2 : ∀ p ∈ m, ∀ q ∈ m, p.1.data.head? ≠ q.2.data.head?)
    (hpass : rename_volumes m dirs = .ok dirs') :
    rename_volumes m dirs' = .ok dirs' := by
  have hmap := rename_volumes_ok_map m dirs dirs' hpass
  have hnk : ∀ d ∈ dirs', NoKeyMatch m d := by
    intro d hd
    rw [hmap] at hd
    obtain ⟨d0, -, rfl⟩ := List.mem_map.mp hd
    rcases applyAll_cases m H1 H2 m (fun p hp => hp) d0 with
      ⟨heq, hall⟩ | hlh
    · intro p hp
      rw [show applyAll m d0 = d0 from heq]
      exact hall p hp
    · exact letterHead_noKeyMatch m H1 H2 _ hlh
  exact rename_volumes_of_noKeyMatch m m (fun p hp => hp) dirs' hnk

theorem C6_renamer_idempotent_witness :
    rename_volumes [("\x7bv1\x7d", "C")] ["C (vsc \x7bs1\x7d)", "other"] =
      .ok ["C (vsc \x7bs1\x7d)", "other"] :=
  C6_renamer_idempotent [("\x7bv1\x7d", "C")]
    ["\x7bv1\x7d (vsc \x7bs1\x7d)", "other"]
    ["C (vsc \x7bs1\x7d)", "other"] (by decide) (by decide) (by decide)

/-! ## Claim C8 -/

/-- The error-log line the walker writes for the failing artifact `abc` of
archive `.` mapped to `/dest/V/Windows/foo.txt` (the f-string of line 217
renders the whole target dict). -/
def c8LogLine : String :=
  ".,abc,\x7b\x27path\x27: PosixPath(\x27/dest/V/Windows/foo.txt\x27), \x27mtime\x27: 1672628645, \x27atime\x27: 1672628645\x7d\n"

/-- C8: exactly one row is appended per failed artifact write, but the
row is malformed — line 217 interpolates the whole manifest-target dict
(`\x7b'path': PosixPath(...), 'mtime': ..., 'atime': ...\x7d`) instead of
the expected target path, so the row has five comma-separated fields under
the three-column header and its third field is not the target path.  Run
shown: destination already holds `/dest/V/Windows/foo.txt`, so the write
of artifact `abc` fails and one line is logged. -/
theorem C8_error_log_row_is_dict_repr :
    (extract_artefacts_recusrive ⟨["dest"], 0, [], [], none, fun _ => false, fun _ => false⟩
        3 (.valid [("GetThis.csv", .manifest [rowSample]),
                   ("abc", .data [42])]) "."
        ⟨[(["dest", "V", "Windows", "foo.txt"], ⟨[1], none, none⟩)],
         [], [], 0, 0⟩).1.log = [c8LogLine] ∧
    (splitOnChar ',' c8LogLine.data).length = 5 ∧
    c8LogLine ≠
      ".,abc," ++ showPath ["dest", "V", "Windows", "foo.txt"] ++ "\n" := by
  decide

/-! ## Claim C3 -/

/-- C3 amended: (1) a walker invocation whose archive fails to open logs
the warning and returns the falsy failure value without raising; (2) a
parent whose sub-call returns that failure value merges nothing and
continues with the remaining sibling entries unchanged; (3) an open
failure of the top-level archive aborts the run with an uncaught
`TypeError` when volume renaming is enabled (the default); with renaming
disabled the run completes and reports success (see the counterexample). -/
theorem C3_open_failure_semantics :
    (∀ (ctx : WalkCtx) (fuel : Nat) (archive_name : String) (st : WalkState),
      extract_artefacts_recusrive ctx (fuel + 1) .invalid archive_name st =
        ({ st with
            warnings := st.warnings ++ [badArchiveWarning archive_name] },
         .ok none)) ∧
    (∀ (recur : ArchiveSrc → String → WalkState →
        WalkState × Except PyErr (Option (List (String × String))))
       (ctx : WalkCtx) (mapping : List (String × TargetEntry))
       (archive_name filename : String) (content : EntryContent)
       (rest : List (String × EntryContent)) (vm : List (String × String))
       (st st' : WalkState),
      pyLookup mapping filename = none →
      ctx.reportFiles.contains (archive_name ++ "/" ++ filename) = false →
      strEndsWith filename ".7z" = true →
      recur (subArcOf content) filename st = (st', .ok none) →
      extractEntriesWith recur ctx mapping archive_name
          ((filename, content) :: rest) vm st =
        extractEntriesWith recur ctx mapping archive_name rest vm st') ∧
    (∀ (fuel : Nat) (dest : List String) (cfg : Option RebuildConfig)
       (tz : Int) (io ut : List String → Bool),
      (artefact_rebuilder (fuel + 1) .invalid dest cfg true tz io ut).result =
        .error .typeError) := by
  refine ⟨?_, ?_, ?_⟩
  · intro ctx fuel archive_name st
    rfl
  · intro recur ctx mapping archive_name filename content rest vm st st'
      h1 h2 h3 hrec
    simp only [extractEntriesWith, h1, h2, h3, hrec]
    simp
  · intro fuel dest cfg tz io ut
    simp only [artefact_rebuilder, extract_artefacts_recusrive]
    simp

/-- C3 as stated is refuted here: with volume renaming disabled the
top-level archive fails to open (the warning is logged) and yet
`artefact_rebuilder` returns success. -/
theorem C3_run_success_despite_open_failure :
    (artefact_rebuilder 1 .invalid ["dest"] none false 0
        (fun _ => false) (fun _ => false)).result = .ok true ∧
    (artefact_rebuilder 1 .invalid ["dest"] none false 0
        (fun _ => false) (fun _ => false)).st.warnings =
      [badArchiveWarning "."] := by
  decide

theorem C3_open_failure_semantics_witness :
    extract_artefacts_recusrive ⟨["dest"], 0, [], [], none, fun _ => false, fun _ => false⟩
        1 .invalid "x.7z" ⟨[], [], [], 0, 0⟩ =
      (⟨[], [], [badArchiveWarning "x.7z"], 0, 0⟩, .ok none) ∧
    extractEntriesWith (fun _ _ s => (s, Except.ok none))
        ⟨["dest"], 0, [], [], none, fun _ => false, fun _ => false⟩ [] "."
        [("x.7z", EntryContent.data [])] [] ⟨[], [], [], 0, 0⟩ =
      extractEntriesWith (fun _ _ s => (s, Except.ok none))
        ⟨["dest"], 0, [], [], none, fun _ => false, fun _ => false⟩ [] "." [] []
        ⟨[], [], [], 0, 0⟩ ∧
    (artefact_rebuilder 1 .invalid ["dest"] none true 0
        (fun _ => false) (fun _ => false)).result = .error .typeError :=
  ⟨C3_open_failure_semantics.1
      ⟨["dest"], 0, [], [], none, fun _ => false, fun _ => false⟩ 0 "x.7z" ⟨[], [], [], 0, 0⟩,
   C3_open_failure_semantics.2.1 (fun _ _ s => (s, Except.ok none))
      ⟨["dest"], 0, [], [], none, fun _ => false, fun _ => false⟩ [] "." "x.7z"
      (EntryContent.data []) [] [] ⟨[], [], [], 0, 0⟩ ⟨[], [], [], 0, 0⟩
      (by decide) (by decide) (by decide) rfl,
   C3_open_failure_semantics.2.2 0 ["dest"] none 0 (fun _ => false)
      (fun _ => false)⟩

/-! ## Claim C9 -/

theorem logFailStep_opens (st : WalkState) (wr : FileSys × Bool)
    (line : String) : (logFailStep st wr line).opens = st.opens := by
  simp only [logFailStep]
  split <;> rfl

theorem logFailStep_closes (st : WalkState) (wr : FileSys × Bool)
    (line : String) : (logFailStep st wr line).closes = st.closes := by
  simp only [logFailStep]
  split <;> rfl

theorem extractEntriesWith_balance
    (recur : ArchiveSrc → String → WalkState →
      WalkState × Except PyErr (Option (List (String × String))))
    (hrec : ∀ (a : ArchiveSrc) (nm : String) (st : WalkState)
      (v : Option (List (String × String))), (recur a nm st).2 = .ok v →
      (recur a nm st).1.opens + st.closes =
        (recur a nm st).1.closes + st.opens) :
    ∀ (files : List (String × EntryContent)) (ctx : WalkCtx)
      (mapping : List (String × TargetEntry)) (archive_name : String)
      (vm : List (String × String)) (st : WalkState)
      (v : List (String × String)),
      (extractEntriesWith recur ctx mapping archive_name files vm st).2 =
        .ok v →
      (extractEntriesWith recur ctx mapping archive_name files vm st).1.opens
          + st.closes =
        (extractEntriesWith recur ctx mapping archive_name files vm
            st).1.closes + st.opens := by
  intro files
  induction files with
  | nil =>
    intro ctx mapping aname vm st v h
    simp [extractEntriesWith]
    omega
  | cons e rest ih =>
    intro ctx mapping aname vm st v h
    obtain ⟨filename, content⟩ := e
    simp only [extractEntriesWith] at h ⊢
    cases hm : pyLookup mapping filename with
    | some target =>
      simp only [hm] at h ⊢
      cases hw : write_file st.fs target.path (entryBytes content)
          (some target.atime) (some target.mtime) (ctx.ioFail target.path)
          (ctx.utimeFail target.path) with
      | mk fs' wres =>
        cases wres with
        | error e' => simp only [hw] at h ⊢; simp at h
        | ok okflag =>
          simp only [hw] at h ⊢
          have hb := ih ctx mapping aname vm _ v h
          rw [logFailStep_opens, logFailStep_closes] at hb
          exact hb
    | none =>
      simp only [hm] at h ⊢
      cases hrep : ctx.reportFiles.contains (aname ++ "/" ++ filename) with
      | true =>
        simp only [hrep, eq_self_iff_true, ite_true] at h ⊢
        cases hrd : ctx.reportDest with
        | none => simp only [hrd] at h ⊢; simp at h
        | some rd =>
          simp only [hrd] at h ⊢
          cases hw : write_file st.fs (pyJoinAbs rd [filename])
              (entryBytes content) none none
              (ctx.ioFail (pyJoinAbs rd [filename]))
              (ctx.utimeFail (pyJoinAbs rd [filename])) with
          | mk fs' wres =>
            cases wres with
            | error e' => simp only [hw] at h ⊢; simp at h
            | ok okflag =>
              simp only [hw] at h ⊢
              have hb := ih ctx mapping aname vm _ v h
              rw [logFailStep_opens, logFailStep_closes] at hb
              exact hb
      | false =>
        simp only [hrep, Bool.false_eq_true, ite_false] at h ⊢
        cases h7 : strEndsWith filename ".7z" with
        | false =>
          simp only [h7, Bool.false_eq_true, ite_false] at h ⊢
          exact ih ctx mapping aname vm st v h
        | true =>
          simp only [h7, eq_self_iff_true, ite_true] at h ⊢
          cases hr : recur (subArcOf content) filename st with
          | mk st' res =>
            cases res with
            | error e' => simp only [hr] at h ⊢; simp at h
            | ok o =>
              have hrb := hrec (subArcOf content) filename st o
                (by rw [hr])
              rw [hr] at hrb
              cases o with
              | none =>
                simp only [hr] at h ⊢
                have hb := ih ctx mapping aname vm st' v h
                simp at hrb
                omega
              | some subVm =>
                simp only [hr] at h ⊢
                have hb := ih ctx mapping aname (pyMerge vm subVm) st' v h
                simp at hrb
                omega

/-- C9 amended: every walker invocation that RETURNS (successfully or
with the falsy open-failure value) leaves opens and closes balanced — the
handle it opened is closed on the normal exit path; but the close is not
in a `finally`, so an invocation that propagates a raised error (manifest
parse error, report-destination error, nested error) can leave its handle
open, as the counterexample shows. -/
theorem C9_close_balanced_on_success :
    ∀ (fuel : Nat) (ctx : WalkCtx) (arc : ArchiveSrc)
      (archive_name : String) (st : WalkState)
      (v : Option (List (String × String))),
      (extract_artefacts_recusrive ctx fuel arc archive_name st).2 = .ok v →
      (extract_artefacts_recusrive ctx fuel arc archive_name st).1.opens
          + st.closes =
        (extract_artefacts_recusrive ctx fuel arc archive_name
            st).1.closes + st.opens := by
  intro fuel
  induction fuel with
  | zero =>
    intro ctx arc aname st v h
    simp [extract_artefacts_recusrive] at h
  | succ n ih =>
    intro ctx arc aname st v h
    cases arc with
    | invalid =>
      simp [extract_artefacts_recusrive]
      omega
    | valid files =>
      simp only [extract_artefacts_recusrive] at h ⊢
      cases hg : getthisOf ctx files with
      | error e => simp only [hg] at h ⊢; simp at h
      | ok mapping =>
        simp only [hg] at h ⊢
        cases hloop : extractEntriesWith
            (fun a nm s => extract_artefacts_recusrive ctx n a nm s)
            ctx mapping aname files (volstatsOf files)
            { st with opens := st.opens + 1 } with
        | mk st2 res =>
          cases res with
          | error e' => simp only [hloop] at h ⊢; simp at h
          | ok vm =>
            simp only [hloop] at h ⊢
            have hb := extractEntriesWith_balance
              (fun a nm s => extract_artefacts_recusrive ctx n a nm s)
              (fun a nm s v' => ih ctx a nm s v') files ctx mapping aname
              (volstatsOf files) { st with opens := st.opens + 1 } vm
              (by rw [hloop])
            rw [hloop] at hb
            simp at hb ⊢
            omega

/-- C9 as stated is refuted here: a walker invocation whose manifest
parsing raises (a malformed `LastModificationDate`) propagates the error
with one handle opened and none closed. -/
theorem C9_unclosed_on_error :
    extract_artefacts_recusrive ⟨["dest"], 0, [], [], none, fun _ => false, fun _ => false⟩
        2 (.valid [("GetThis.csv", .manifest
          [⟨"abc", "V", "\x7bs1\x7d", "\\Windows\\foo.txt", "garbage",
            "garbage"⟩])]) "." ⟨[], [], [], 0, 0⟩ =
      (⟨[], [], [], 1, 0⟩, .error .valueError) := by
  decide

theorem C9_close_balanced_on_success_witness :
    (extract_artefacts_recusrive ⟨["dest"], 0, [], [], none, fun _ => false, fun _ => false⟩
        2 (.valid [("GetThis.csv", .manifest [rowSample]),
                   ("abc", .data [42])]) "." ⟨[], [], [], 0, 0⟩).1.opens + 0 =
      (extract_artefacts_recusrive ⟨["dest"], 0, [], [], none, fun _ => false, fun _ => false⟩
        2 (.valid [("GetThis.csv", .manifest [rowSample]),
                   ("abc", .data [42])]) "." ⟨[], [], [], 0, 0⟩).1.closes + 0 :=
  C9_close_balanced_on_success 2
    ⟨["dest"], 0, [], [], none, fun _ => false, fun _ => false⟩
    (.valid [("GetThis.csv", .manifest [rowSample]), ("abc", .data [42])])
    "." ⟨[], [], [], 0, 0⟩ (some []) (by decide)

end DfirOrc
